import Mathlib

/-!
Verification of the CRDP-mapping extraction script
(`lighthouse-core/scripts/extract-crdp-mapping.js`).

The script walks a parsed TypeScript declaration tree (`crdp.d.ts`), collects
for every protocol domain an event map and a command map, and renders both as
a generated typing file.  The embedding below models the subset of the
TypeScript AST the script inspects and translates each function of the script
into a Lean definition.  JavaScript exceptions are modelled by `Except JsError`:
`JsError.thrown` is an explicit `throw new Error(msg)` in the script, while
`JsError.typeError` is an implicit runtime TypeError (for instance a property
access on `undefined`).
-/

namespace Crdp

/-- A TypeScript `EntityName`: an identifier or a qualified name whose
right-hand part is an identifier. -/
inductive EntityName where
  | ident (text : String)
  | qualified (left : EntityName) (right : String)
deriving DecidableEq, Repr

/-- The subset of TypeScript type nodes the script distinguishes:
type references (`ts.isTypeReferenceNode`, with optional type arguments),
function types (`ts.isFunctionTypeNode`, parameters are modelled by their
optional declared types, plus an optional return type), the `void` keyword,
and everything else.  A parameter is modelled as its optional `type` field,
the only field the script reads. -/
inductive TsType where
  | typeRef (typeName : EntityName) (typeArguments : Option (List TsType))
  | functionType (parameters : List (Option TsType)) (returnType : Option TsType)
  | voidKeyword
  | otherType

/-- A member name: an identifier (`ts.isIdentifier(member.name)`) or not. -/
inductive PropName where
  | identName (text : String)
  | otherName
deriving DecidableEq, Repr

/-- Interface members the script distinguishes: property signatures (with
their optional-marker `questionToken` and optional type), method signatures
(with their parameter list), and everything else. -/
inductive Member where
  | propertySignature (name : PropName) (questionToken : Bool) (type : Option TsType)
  | methodSignature (name : PropName) (parameters : List (Option TsType))
  | otherMember

/-- Declaration-level nodes reachable by the script's DFS:
interface declarations, module (namespace) declarations, and other nodes with
children.  Interface members never contain further interface or module
declarations in the modelled subset, so the DFS does not descend into them. -/
inductive TsNode where
  | interfaceDecl (name : String) (members : List Member)
  | moduleDecl (name : String) (body : List TsNode)
  | otherNode (children : List TsNode)

/-- A JavaScript exception: a `throw new Error(msg)` (`thrown`) or an implicit
runtime TypeError (`typeError`). -/
inductive JsError where
  | thrown (msg : String)
  | typeError (msg : String)
deriving DecidableEq, Repr

def TsType.isTypeReferenceNode : TsType → Bool
  | .typeRef _ _ => true
  | _ => false

def TsType.isFunctionTypeNode : TsType → Bool
  | .functionType _ _ => true
  | _ => false

def Member.isPropertySignature : Member → Bool
  | .propertySignature _ _ _ => true
  | _ => false

mutual

/-- `findFirstInterfaceOrModule`: DFS of the AST, returning the first
interface or module found with the matching target name (the node itself is
checked before its children). -/
def findFirstInterfaceOrModule (rootNode : TsNode) (targetName : String) : Option TsNode :=
  match rootNode with
  | .interfaceDecl name _ =>
      if name == targetName then some rootNode else none
  | .moduleDecl name body =>
      if name == targetName then some rootNode else findFirstInList body targetName
  | .otherNode children => findFirstInList children targetName

/-- The `ts.forEachChild(node, walker)` part of the DFS: first non-`none`
result over the children, in order. -/
def findFirstInList (nodes : List TsNode) (targetName : String) : Option TsNode :=
  match nodes with
  | [] => none
  | n :: rest =>
      match findFirstInterfaceOrModule n targetName with
      | some found => some found
      | none => findFirstInList rest targetName

end

/-- `getCrdpDomainNames`: finds the `CrdpClient` interface and lists the
names of its property-signature members.  If the found node is not an
interface its children are not property signatures, so the list is empty. -/
def getCrdpDomainNames (node : TsNode) : Except JsError (List String) :=
  match findFirstInterfaceOrModule node "CrdpClient" with
  | none => .error (.thrown "no `interface CrdpClient` found in typing file")
  | some (.interfaceDecl _ members) =>
      .ok (members.filterMap fun m =>
        match m with
        | .propertySignature (.identName text) _ _ => some text
        | _ => none)
  | some _ => .ok []

/-- `getTypeName`: returns the qualified name of the type node as a
`(domain, type)` pair; rejects triple-nested qualified names and
non-qualified names.  Passing a non-reference node would dereference
`undefined` in the script (TypeError); all call sites guard against that. -/
def getTypeName (typeNode : TsType) (debugName : String) : Except JsError (String × String) :=
  match typeNode with
  | .typeRef typeName _ =>
      match typeName with
      | .qualified left right =>
          match left with
          | .qualified _ _ =>
              .error (.thrown ("unsupported triple nested type name in " ++ debugName))
          | .ident domain => .ok (domain, right)
      | .ident _ => .error (.thrown ("unexpected type node in " ++ debugName))
  | _ => .error (.typeError "typeName accessed on a non-reference node")

/-- `getParamType`: asserts that this is a function with zero or one
parameters and returns `none` or the parameter's type reference,
respectively. -/
def getParamType (functionNode : TsType) (debugName : String) : Except JsError (Option TsType) :=
  match functionNode with
  | .functionType parameters _ =>
      match parameters with
      | [paramType?] =>
          match paramType? with
          | some paramType =>
              if paramType.isTypeReferenceNode then .ok (some paramType)
              else .error (.thrown ("unexpected param passed to " ++ debugName))
          | none => .error (.thrown ("unexpected param passed to " ++ debugName))
      | [] => .ok none
      | _ =>
          .error (.thrown ("found " ++ toString parameters.length
            ++ " parameters passed to " ++ debugName ++ "."))
  | _ => .error (.typeError "parameters accessed on a non-function node")

/-- `getEventListenerParamType`: validates an event-listener method and
returns the type of its expected payload (`none` if no payload).  Note the
script checks `parameters.length > 1` and then reads `parameters[0].type`
unconditionally, so an empty parameter list hits a TypeError
(`undefined.type`), not a thrown `Error`. -/
def getEventListenerParamType (parameters : List (Option TsType)) (methodName : String) :
    Except JsError (Option TsType) :=
  if parameters.length > 1 then
    .error (.thrown ("found " ++ toString parameters.length
      ++ " parameters passed to " ++ methodName ++ "."))
  else
    match parameters.head? with
    | none => .error (.typeError "Cannot read property type of undefined")
    | some listenerTypeNode? =>
        match listenerTypeNode? with
        | some listenerTypeNode =>
            if listenerTypeNode.isFunctionTypeNode then
              getParamType listenerTypeNode methodName
            else
              .error (.thrown ("found unexpected argument passed to " ++ methodName ++ "."))
        | none =>
            .error (.thrown ("found unexpected argument passed to " ++ methodName ++ "."))

/-- The regular-expression test `/^on[A-Z]/.test(methodName)`. -/
def isListenerName (s : String) : Bool :=
  match s.toList with
  | a :: b :: c :: _ => a == 'o' && b == 'n' && decide ('A' ≤ c) && decide (c ≤ 'Z')
  | _ => false

/-- JavaScript `toLowerCase()` restricted to the ASCII range the script can
reach (the character is guarded by `[A-Z]` in the regular expression). -/
def jsToLower (c : Char) : Char :=
  if 'A' ≤ c ∧ c ≤ 'Z' then Char.ofNat (c.toNat + 32) else c

/-- `methodName[2].toLowerCase() + methodName.slice(3)`.  When the string has
fewer than three characters, `methodName[2]` is `undefined` in JavaScript and
`.toLowerCase()` raises a TypeError. -/
def eventStringOf (methodName : String) : Except JsError String :=
  match methodName.toList with
  | _ :: _ :: c :: rest => .ok (String.mk (jsToLower c :: rest))
  | _ => .error (.typeError "Cannot read property toLowerCase of undefined")

/-- JavaScript `Map.prototype.set` on an insertion-ordered association list:
an existing key keeps its position and gets the new value, a new key is
appended at the end. -/
def mapSet {α : Type} (m : List (String × α)) (k : String) (v : α) : List (String × α) :=
  if m.any (fun p => p.1 == k) then
    m.map (fun p => if p.1 == k then (k, v) else p)
  else
    m ++ [(k, v)]

/-- The event-type string computed for one listener method in `getEventMap`:
`void` when the callback takes no argument, otherwise
`Crdp.<domain>.<type>` for the resolved payload reference. -/
def eventTypeOf (parameters : List (Option TsType)) (methodName : String) :
    Except JsError String := do
  let rawEventType ← getEventListenerParamType parameters methodName
  match rawEventType with
  | some t => do
      let dt ← getTypeName t methodName
      pure ("Crdp." ++ dt.1 ++ "." ++ dt.2)
  | none => pure "void"

/-- The member loop of `getEventMap`: non-method members are skipped, a
method with a non-identifier name or a name failing the listener convention
throws, and each accepted method sets one entry in the ordered map. -/
def processEventMembers (domainName : String) :
    List Member → List (String × String) → Except JsError (List (String × String))
  | [], eventMap => .ok eventMap
  | .methodSignature (.identName methodName) parameters :: rest, eventMap =>
      if isListenerName methodName then do
        let eventString ← eventStringOf methodName
        let eventName := domainName ++ "." ++ eventString
        let eventType ← eventTypeOf parameters methodName
        processEventMembers domainName rest (mapSet eventMap eventName eventType)
      else
        .error (.thrown ("bad method name found: " ++ methodName))
  | .methodSignature .otherName _ :: _, _ =>
      .error (.thrown "Bad event method found")
  | _ :: rest, eventMap => processEventMembers domainName rest eventMap

/-- `getEventMap`: finds the `<domainName>Client` interface and folds its
members into an ordered event map. -/
def getEventMap (sourceRoot : TsNode) (domainName : String) :
    Except JsError (List (String × String)) :=
  match findFirstInterfaceOrModule sourceRoot (domainName ++ "Client") with
  | some (.interfaceDecl _ members) => processEventMembers domainName members []
  | _ =>
      .error (.thrown ("Events interface not found for domain \x27" ++ domainName ++ "\x27."))

/-- `getPromisedReturnType`: asserts that the function returns
`Promise<payload>` and renders the payload, `void` for the `void` keyword and
`<domain>.<type>` for a resolved reference. -/
def getPromisedReturnType (functionNode : TsType) (debugName : String) : Except JsError String :=
  match functionNode with
  | .functionType _ returnTypeNode? =>
      match returnTypeNode? with
      | some (.typeRef typeName typeArguments?) =>
          match typeName, typeArguments? with
          | .ident t, some typeArguments =>
              if t == "Promise" then
                match typeArguments with
                | [payloadType] =>
                    match payloadType with
                    | .voidKeyword => .ok "void"
                    | .typeRef _ _ => do
                        let dt ← getTypeName payloadType debugName
                        pure (dt.1 ++ "." ++ dt.2)
                    | _ => .error (.thrown ("unexpected return type for " ++ debugName))
                | _ => .error (.thrown ("unexpected param(s) passed to " ++ debugName))
              else
                .error (.thrown ("command " ++ debugName ++ " has unexpected return type"))
          | _, _ =>
              .error (.thrown ("command " ++ debugName ++ " has unexpected return type"))
      | _ => .error (.thrown ("unexpected return type for " ++ debugName))
  | _ => .error (.typeError "type accessed on a non-function node")

/-- The predicate `isWeakInterface` evaluates on each member: property
signatures must carry the optional marker, all other members are ignored
(count as `true`). -/
def memberOptionalOrNonProp : Member → Bool
  | .propertySignature _ questionToken _ => questionToken
  | _ => true

/-- `isWeakInterface`: finds the module declaration for `domainName`, the
interface `interfaceName` inside it, and returns whether every property
member is optional. -/
def isWeakInterface (sourceRoot : TsNode) (domainName interfaceName : String) :
    Except JsError Bool :=
  match findFirstInterfaceOrModule sourceRoot domainName with
  | some (.moduleDecl dn body) =>
      match findFirstInterfaceOrModule (.moduleDecl dn body) interfaceName with
      | some (.interfaceDecl _ members) => .ok (members.all memberOptionalOrNonProp)
      | _ =>
          .error (.thrown ("interface " ++ interfaceName ++ " not found within "
            ++ domainName ++ " domain"))
  | _ => .error (.thrown ("domain " ++ domainName ++ " not found"))

/-- The parameter-type string computed for one command in `getCommandMap`:
`void` for a parameterless command, otherwise `Crdp.<domain>.<type>`, with
the alternative `void | ` prefix when the resolved interface is weak. -/
def computeParamsType (sourceRoot : TsNode) (commandFn : TsType) (commandName : String) :
    Except JsError String := do
  let rawParamsTypeNode ← getParamType commandFn commandName
  match rawParamsTypeNode with
  | none => pure "void"
  | some t => do
      let dt ← getTypeName t commandName
      let paramsType := "Crdp." ++ dt.1 ++ "." ++ dt.2
      let weak ← isWeakInterface sourceRoot dt.1 dt.2
      pure (if weak then "void | " ++ paramsType else paramsType)

/-- The return-type string computed for one command in `getCommandMap`:
`void` stays `void`, anything else gets the `Crdp.` prefix. -/
def computeReturnType (commandFn : TsType) (commandName : String) : Except JsError String := do
  let rawReturnTypeName ← getPromisedReturnType commandFn commandName
  pure (if rawReturnTypeName == "void" then "void" else "Crdp." ++ rawReturnTypeName)

/-- One command-map entry: the rendered parameter and return types. -/
structure CommandEntry where
  paramsType : String
  returnType : String
deriving DecidableEq, Repr

/-- The member loop of `getCommandMap`: non-property members are skipped, a
property with a non-identifier name throws, a property whose type is not a
function type throws, and each accepted command sets one entry in the
ordered map. -/
def processCommandMembers (sourceRoot : TsNode) (domainName : String) :
    List Member → List (String × CommandEntry) → Except JsError (List (String × CommandEntry))
  | [], commandMap => .ok commandMap
  | .propertySignature (.identName text) _ type? :: rest, commandMap =>
      let commandName := domainName ++ "." ++ text
      match type? with
      | some commandFn =>
          if commandFn.isFunctionTypeNode then do
            let paramsType ← computeParamsType sourceRoot commandFn commandName
            let returnType ← computeReturnType commandFn commandName
            processCommandMembers sourceRoot domainName rest
              (mapSet commandMap commandName ⟨paramsType, returnType⟩)
          else
            .error (.thrown ("Command " ++ commandName ++ " did not have an assigned function"))
      | none =>
          .error (.thrown ("Command " ++ commandName ++ " did not have an assigned function"))
  | .propertySignature .otherName _ _ :: _, _ =>
      .error (.thrown "Bad event method found")
  | _ :: rest, commandMap => processCommandMembers sourceRoot domainName rest commandMap

/-- `getCommandMap`: finds the `<domainName>Commands` interface and folds its
members into an ordered command map. -/
def getCommandMap (sourceRoot : TsNode) (domainName : String) :
    Except JsError (List (String × CommandEntry)) :=
  match findFirstInterfaceOrModule sourceRoot (domainName ++ "Commands") with
  | some (.interfaceDecl _ members) => processCommandMembers sourceRoot domainName members []
  | _ =>
      .error (.thrown ("Command interface not found for domain \x27" ++ domainName ++ "\x27."))

/-- JavaScript `'  '.repeat(n)`. -/
def strRepeat (s : String) : Nat → String
  | 0 => ""
  | n + 1 => strRepeat s n ++ s

/-- `newline`: a line break followed by two spaces per indent level. -/
def newline (indentLevel : Nat) : String :=
  "\n" ++ strRepeat "  " indentLevel

def OUTPUT_EVENTS_NAME : String := "CrdpEvents"

def OUTPUT_COMMANDS_NAME : String := "CrdpCommands"

/-- The inner loop of `outputEventMap`: one line per event entry. -/
def renderEventEntries (indentLevel : Nat) (m : List (String × String)) : String :=
  m.foldl (fun acc e =>
    acc ++ newline (indentLevel + 1) ++ "\x27" ++ e.1 ++ "\x27: " ++ e.2 ++ ";") ""

/-- `outputEventMap`: the `CrdpEvents` interface text over all domains. -/
def outputEventMap (sourceRoot : TsNode) (domainNames : List String) (indentLevel : Nat) :
    Except JsError String := do
  let body ← domainNames.foldlM (fun acc domainName => do
      let eventMap ← getEventMap sourceRoot domainName
      pure (acc ++ renderEventEntries indentLevel eventMap)) ""
  pure (newline indentLevel ++ "export interface " ++ OUTPUT_EVENTS_NAME ++ " \x7b"
    ++ body ++ newline indentLevel ++ "\x7d")

/-- The inner loop of `outputCommandMap`: one block per command entry. -/
def renderCommandEntries (indentLevel : Nat) (m : List (String × CommandEntry)) : String :=
  m.foldl (fun acc e =>
    acc ++ newline (indentLevel + 1) ++ "\x27" ++ e.1 ++ "\x27: \x7b"
      ++ newline (indentLevel + 2) ++ "paramsType: " ++ e.2.paramsType ++ ","
      ++ newline (indentLevel + 2) ++ "returnType: " ++ e.2.returnType
      ++ newline (indentLevel + 1) ++ "\x7d;") ""

/-- `outputCommandMap`: the `CrdpCommands` interface text over all domains. -/
def outputCommandMap (sourceRoot : TsNode) (domainNames : List String) (indentLevel : Nat) :
    Except JsError String := do
  let body ← domainNames.foldlM (fun acc domainName => do
      let commandsMap ← getCommandMap sourceRoot domainName
      pure (acc ++ renderCommandEntries indentLevel commandsMap)) ""
  pure (newline indentLevel ++ "export interface " ++ OUTPUT_COMMANDS_NAME ++ " \x7b"
    ++ body ++ newline indentLevel ++ "\x7d")

/-- The fixed license header emitted at the top of the generated file. -/
def headerBlock : String :=
  "/**\n * @license Copyright 2018 Google Inc. All Rights Reserved.\n"
    ++ " * Licensed under the Apache License, Version 2.0 (the \"License\"); you may not use this file except in compliance with the License. You may obtain a copy of the License at http://www.apache.org/licenses/LICENSE-2.0\n"
    ++ " * Unless required by applicable law or agreed to in writing, software distributed under the License is distributed on an \"AS IS\" BASIS, WITHOUT WARRANTIES OR CONDITIONS OF ANY KIND, either express or implied. See the License for the specific language governing permissions and limitations under the License.\n"
    ++ " */\n\n// Generated by `yarn update:crdp-typings`\n"

/-- The end-to-end extraction-and-rendering pipeline on a parsed schema tree:
domain enumeration, then the event block, then the command block, wrapped in
the fixed header and `declare global` scaffolding (the file-system read and
write around it are external collaborators). -/
def generateCrdpStr (sourceRoot : TsNode) : Except JsError String := do
  let crdpDomainNames ← getCrdpDomainNames sourceRoot
  let ev ← outputEventMap sourceRoot crdpDomainNames 2
  let cm ← outputCommandMap sourceRoot crdpDomainNames 2
  pure (headerBlock ++ "\ndeclare global \x7b\n  module LH \x7b" ++ ev ++ "\n" ++ cm
    ++ "\n  \x7d\n\x7d\n\n// empty export to keep file a module\nexport \x7b\x7d\n")

/-! ### Helper lemmas -/

theorem bindOkE {ε α β : Type} (a : α) (f : α → Except ε β) :
    (Except.ok a >>= f : Except ε β) = f a := rfl

theorem char_toNat_le_of_le {a b : Char} (h : a ≤ b) : a.toNat ≤ b.toNat := by
  simpa [Char.le_def, UInt32.le_def, BitVec.le_def, Char.toNat, UInt32.toNat] using h

theorem char_le_of_toNat_le {a b : Char} (h : a.toNat ≤ b.toNat) : a ≤ b := by
  simpa [Char.le_def, UInt32.le_def, BitVec.le_def, Char.toNat, UInt32.toNat] using h

theorem toNat_ofNat_valid {n : Nat} (h : n.isValidChar) : (Char.ofNat n).toNat = n := by
  simp [Char.ofNat, dif_pos h, Char.ofNatAux, Char.toNat, UInt32.toNat]

/-- Lower-casing an ASCII capital yields an ASCII lower-case letter. -/
theorem jsToLower_lower {c : Char} (h1 : 'A' ≤ c) (h2 : c ≤ 'Z') :
    'a' ≤ jsToLower c ∧ jsToLower c ≤ 'z' := by
  unfold jsToLower
  rw [if_pos ⟨h1, h2⟩]
  have hn1 : 65 ≤ c.toNat := char_toNat_le_of_le h1
  have hn2 : c.toNat ≤ 90 := char_toNat_le_of_le h2
  have hvalid : Nat.isValidChar (c.toNat + 32) := Or.inl (by omega)
  have ht : (Char.ofNat (c.toNat + 32)).toNat = c.toNat + 32 := toNat_ofNat_valid hvalid
  constructor
  · exact char_le_of_toNat_le (by rw [ht]; change 97 ≤ _; omega)
  · exact char_le_of_toNat_le (by rw [ht]; change _ ≤ 122; omega)

/-- A name passing the `/^on[A-Z]/` test is `on` followed by a capital and a
(possibly empty) tail. -/
theorem isListenerName_shape {s : String} (h : isListenerName s = true) :
    ∃ c cs, s.toList = 'o' :: 'n' :: c :: cs ∧ 'A' ≤ c ∧ c ≤ 'Z' := by
  unfold isListenerName at h
  rcases hm : s.toList with _ | ⟨a, _ | ⟨b, _ | ⟨c, cs⟩⟩⟩ <;> rw [hm] at h
  · simp at h
  · simp at h
  · simp at h
  · simp only [Bool.and_eq_true, beq_iff_eq, decide_eq_true_eq] at h
    obtain ⟨⟨⟨ha, hb⟩, hA⟩, hZ⟩ := h
    subst ha
    subst hb
    exact ⟨c, cs, rfl, hA, hZ⟩

/-- Prefixing the no-payload alternative changes the string. -/
theorem voidAlt_ne (s : String) : "void | " ++ s ≠ s := by
  intro h
  have hlen := congrArg String.length h
  rw [String.length_append] at hlen
  have h7 : ("void | " : String).length = 7 := rfl
  omega

/-- How `computeParamsType` renders a command whose single parameter resolves
to the reference `(D, T)` and whose weakness lookup succeeds: the alternative
`void | ` prefix appears exactly when all property members of `T` are
optional. -/
theorem computeParamsType_eq {sourceRoot : TsNode} {commandFn : TsType}
    {commandName D T : String} {tref : TsType} {dn : String} {dbody : List TsNode}
    {tn : String} {ms : List Member}
    (hp : getParamType commandFn commandName = .ok (some tref))
    (ht : getTypeName tref commandName = .ok (D, T))
    (hD : findFirstInterfaceOrModule sourceRoot D = some (.moduleDecl dn dbody))
    (hT : findFirstInterfaceOrModule (.moduleDecl dn dbody) T = some (.interfaceDecl tn ms)) :
    computeParamsType sourceRoot commandFn commandName =
      .ok (if ms.all memberOptionalOrNonProp then "void | " ++ ("Crdp." ++ D ++ "." ++ T)
           else "Crdp." ++ D ++ "." ++ T) := by
  unfold computeParamsType
  rw [hp, bindOkE]
  simp only
  rw [ht, bindOkE]
  simp only
  unfold isWeakInterface
  rw [hD]
  simp only
  rw [hT]
  simp only [bindOkE]
  cases hb : ms.all memberOptionalOrNonProp <;> simp [hb] <;> rfl

/-! ### Claims -/

/-- Claim C1: for a command whose single parameter type resolves to the
qualified reference `(D, T)` with `T` a structural type declared inside the
module grouping `D`, the rendered `paramsType` is `void | Crdp.D.T` exactly
when every property-signature member of `T` carries the optional marker
(non-property members are ignored by `memberOptionalOrNonProp`), and is
`Crdp.D.T` with no alternative otherwise. -/
theorem C1_weak_params_alternative {sourceRoot : TsNode} {commandFn : TsType}
    {commandName D T : String} {tref : TsType} {dn : String} {dbody : List TsNode}
    {tn : String} {ms : List Member}
    (hp : getParamType commandFn commandName = .ok (some tref))
    (ht : getTypeName tref commandName = .ok (D, T))
    (hD : findFirstInterfaceOrModule sourceRoot D = some (.moduleDecl dn dbody))
    (hT : findFirstInterfaceOrModule (.moduleDecl dn dbody) T = some (.interfaceDecl tn ms)) :
    (computeParamsType sourceRoot commandFn commandName =
        .ok ("void | " ++ ("Crdp." ++ D ++ "." ++ T)) ↔
      ms.all memberOptionalOrNonProp = true)
    ∧ (ms.all memberOptionalOrNonProp = false →
      computeParamsType sourceRoot commandFn commandName =
        .ok ("Crdp." ++ D ++ "." ++ T)) := by
  have he := computeParamsType_eq hp ht hD hT
  constructor
  · constructor
    · intro hr
      by_contra hb
      rw [Bool.not_eq_true] at hb
      rw [hb, if_neg Bool.false_ne_true] at he
      rw [he] at hr
      have heq := Except.ok.inj hr
      exact voidAlt_ne _ heq.symm
    · intro hb
      rw [hb, if_pos rfl] at he
      exact he
  · intro hb
    rw [hb, if_neg Bool.false_ne_true] at he
    exact he

def egWeakRoot : TsNode :=
  .moduleDecl "Dom" [.interfaceDecl "Ty" [.propertySignature (.identName "a") true none]]

def egWeakFn : TsType :=
  .functionType [some (.typeRef (.qualified (.ident "Dom") "Ty") none)] none

/-- Witness for C1 at a concrete one-optional-property interface. -/
theorem C1_weak_params_alternative_witness :
    (computeParamsType egWeakRoot egWeakFn "Dom.cmd" =
        .ok ("void | " ++ ("Crdp." ++ "Dom" ++ "." ++ "Ty")) ↔
      ([Member.propertySignature (.identName "a") true none].all memberOptionalOrNonProp) = true)
    ∧ (([Member.propertySignature (.identName "a") true none].all memberOptionalOrNonProp) = false →
      computeParamsType egWeakRoot egWeakFn "Dom.cmd" =
        .ok ("Crdp." ++ "Dom" ++ "." ++ "Ty")) :=
  @C1_weak_params_alternative egWeakRoot egWeakFn "Dom.cmd" "Dom" "Ty"
    (.typeRef (.qualified (.ident "Dom") "Ty") none) "Dom"
    [.interfaceDecl "Ty" [.propertySignature (.identName "a") true none]] "Ty"
    [.propertySignature (.identName "a") true none] rfl rfl rfl rfl

/-- Claim C10: a structural type declaration containing no property-signature
members at all (empty, or only non-property members) is classified weak by
`isWeakInterface` — the all-members-optional test holds vacuously — so a
command whose resolved parameter type references it gets the no-payload
alternative in its rendered `paramsType`. -/
theorem C10_no_prop_members_weak {sourceRoot : TsNode} {commandFn : TsType}
    {commandName D T : String} {tref : TsType} {dn : String} {dbody : List TsNode}
    {tn : String} {ms : List Member}
    (hD : findFirstInterfaceOrModule sourceRoot D = some (.moduleDecl dn dbody))
    (hT : findFirstInterfaceOrModule (.moduleDecl dn dbody) T = some (.interfaceDecl tn ms))
    (hnoprops : ms.all (fun m => ! m.isPropertySignature) = true)
    (hp : getParamType commandFn commandName = .ok (some tref))
    (ht : getTypeName tref commandName = .ok (D, T)) :
    isWeakInterface sourceRoot D T = .ok true
    ∧ computeParamsType sourceRoot commandFn commandName =
        .ok ("void | " ++ ("Crdp." ++ D ++ "." ++ T)) := by
  have hall : ms.all memberOptionalOrNonProp = true := by
    rw [List.all_eq_true] at hnoprops ⊢
    intro m hm
    have hmm := hnoprops m hm
    cases m <;> simp_all [Member.isPropertySignature, memberOptionalOrNonProp]
  constructor
  · unfold isWeakInterface
    rw [hD]
    simp only
    rw [hT]
    simp only [hall]
  · have he := computeParamsType_eq hp ht hD hT
    rw [hall, if_pos rfl] at he
    exact he

def egEmptyRoot : TsNode := .moduleDecl "Dom" [.interfaceDecl "Empty" []]

def egEmptyFn : TsType :=
  .functionType [some (.typeRef (.qualified (.ident "Dom") "Empty") none)] none

/-- Witness for C10 at a concrete empty interface. -/
theorem C10_no_prop_members_weak_witness :
    isWeakInterface egEmptyRoot "Dom" "Empty" = .ok true
    ∧ computeParamsType egEmptyRoot egEmptyFn "Dom.cmd" =
        .ok ("void | " ++ ("Crdp." ++ "Dom" ++ "." ++ "Empty")) :=
  @C10_no_prop_members_weak egEmptyRoot egEmptyFn "Dom.cmd" "Dom" "Empty"
    (.typeRef (.qualified (.ident "Dom") "Empty") none) "Dom"
    [.interfaceDecl "Empty" []] "Empty" [] rfl rfl rfl rfl rfl

/-- Claim C7: on a type-reference node the resolver has exactly three
outcomes — a two-part qualified path yields its `(domain, type)` pair, a
deeper-nested path fails mentioning the triple-nested name, and a
non-qualified name fails mentioning an unexpected type node. -/
theorem C7_type_name_trichotomy (typeName : EntityName) (targs : Option (List TsType))
    (dbg : String) :
    (∃ l r, typeName = .qualified (.ident l) r ∧
      getTypeName (.typeRef typeName targs) dbg = .ok (l, r))
    ∨ (∃ a b r, typeName = .qualified (.qualified a b) r ∧
      getTypeName (.typeRef typeName targs) dbg =
        .error (.thrown ("unsupported triple nested type name in " ++ dbg)))
    ∨ (∃ t, typeName = .ident t ∧
      getTypeName (.typeRef typeName targs) dbg =
        .error (.thrown ("unexpected type node in " ++ dbg))) := by
  match typeName with
  | .ident t => exact Or.inr (Or.inr ⟨t, rfl, rfl⟩)
  | .qualified (.ident l) r => exact Or.inl ⟨l, r, rfl, rfl⟩
  | .qualified (.qualified a b) r => exact Or.inr (Or.inl ⟨a, b, r, rfl, rfl⟩)

/-- Claim C9: a method name passing the listener convention has length at
least three, so the index-2 read and index-3 slice of the event-name
derivation are in bounds and its out-of-range (TypeError) branch is
unreachable. -/
theorem C9_listener_name_in_bounds (s : String) (h : isListenerName s = true) :
    3 ≤ s.length ∧ ∃ es, eventStringOf s = .ok es := by
  obtain ⟨c, cs, hm, hA, hZ⟩ := isListenerName_shape h
  constructor
  · have hl : s.length = s.toList.length := rfl
    rw [hl, hm]
    simp
  · exact ⟨String.mk (jsToLower c :: cs), by unfold eventStringOf; rw [hm]⟩

/-- Witness for C9 at the listener name `onFoo`. -/
theorem C9_listener_name_in_bounds_witness :
    3 ≤ ("onFoo" : String).length ∧ ∃ es, eventStringOf "onFoo" = .ok es :=
  C9_listener_name_in_bounds "onFoo" rfl

/-- Claim C3 is wrong about the code (code bug): a zero-parameter
event-listener method makes `getEventListenerParamType` read
`parameters[0].type` on an empty list — `parameters[0]` is `undefined`, so
the run dies with an uncontrolled TypeError carrying no method name, not the
controlled message-bearing `UnsupportedShape` failure the specification
requires for every unsupported shape. -/
theorem C3_zero_param_listener_typeerror (methodName : String) :
    getEventListenerParamType [] methodName =
      .error (.typeError "Cannot read property type of undefined") := rfl

def egNetworkCommands : TsNode :=
  .interfaceDecl "NetworkCommands"
    [.propertySignature (.identName "enable") false
      (some (.functionType [] (some (.typeRef (.ident "Promise") (some [.voidKeyword])))))]

/-- Claim C5: a command whose Promise wrapper wraps the `void` keyword gets
returnType `void` — never a `Crdp.`-prefixed reference — both in
`getPromisedReturnType` and after `getCommandMap`'s prefixing step, and the
spec's `Network.enable` example produces exactly
`paramsType = void, returnType = void`. -/
theorem C5_void_return_renders_void :
    (∀ ps dbg, getPromisedReturnType
        (.functionType ps (some (.typeRef (.ident "Promise") (some [TsType.voidKeyword])))) dbg
      = .ok "void")
    ∧ (∀ ps cn, computeReturnType
        (.functionType ps (some (.typeRef (.ident "Promise") (some [TsType.voidKeyword])))) cn
      = .ok "void")
    ∧ getCommandMap egNetworkCommands "Network" =
        .ok [("Network.enable", ⟨"void", "void"⟩)] :=
  ⟨fun _ _ => rfl, fun _ _ => rfl, rfl⟩

/-- Modelled from the claim's wording for C4: the shape the declared return
type must have for extraction to succeed — the `Promise` wrapper applied to
exactly one argument that is either the void keyword or a resolvable
(two-part qualified) type reference. -/
def payloadIsVoid : TsType → Bool
  | .voidKeyword => true
  | _ => false

def resolvableQualifiedRef : TsType → Bool
  | .typeRef (.qualified (.ident _) _) _ => true
  | _ => false

def wrapperShapeOk : Option TsType → Bool
  | some (.typeRef (.ident t) (some [payload])) =>
      t == "Promise" && (payloadIsVoid payload || resolvableQualifiedRef payload)
  | _ => false

/-- Claim C4: return-type extraction on a command's function-type node
succeeds exactly when the declared return type is `Promise` applied to one
type argument that is the void keyword or a resolvable qualified reference;
every other shape (missing return type, non-`Promise` head, absent type
arguments, an argument count other than one, or an unresolvable payload)
fails with an error. -/
theorem C4_promised_return_shape (params : List (Option TsType)) (rt? : Option TsType)
    (dbg : String) :
    ((getPromisedReturnType (.functionType params rt?) dbg).isOk = wrapperShapeOk rt?)
    ∧ (rt? = some (.typeRef (.ident "Promise") (some [.voidKeyword])) →
      getPromisedReturnType (.functionType params rt?) dbg = .ok "void")
    ∧ (∀ D T targs, rt? = some (.typeRef (.ident "Promise")
          (some [.typeRef (.qualified (.ident D) T) targs])) →
      getPromisedReturnType (.functionType params rt?) dbg = .ok (D ++ "." ++ T)) := by
  refine ⟨?_, ?_, ?_⟩
  case refine_2 =>
    intro hrt
    subst hrt
    rfl
  case refine_3 =>
    intro D T targs hrt
    subst hrt
    rfl
  match rt? with
  | none => rfl
  | some (.functionType _ _) => rfl
  | some .voidKeyword => rfl
  | some .otherType => rfl
  | some (.typeRef (.qualified _ _) none) => rfl
  | some (.typeRef (.qualified _ _) (some _)) => rfl
  | some (.typeRef (.ident t) none) => rfl
  | some (.typeRef (.ident t) (some args)) =>
    simp only [getPromisedReturnType, wrapperShapeOk]
    by_cases hp : t = "Promise"
    · subst hp
      simp only [beq_self_eq_true, if_true, Bool.true_and]
      match args with
      | [] => rfl
      | [.voidKeyword] => rfl
      | [.functionType _ _] => rfl
      | [.otherType] => rfl
      | [.typeRef (.ident _) _] => rfl
      | [.typeRef (.qualified (.ident _) _) _] => rfl
      | [.typeRef (.qualified (.qualified _ _) _) _] => rfl
      | _ :: _ :: _ => rfl
    · rw [if_neg (by simpa using hp)]
      have hb : (t == "Promise") = false := by simpa using hp
      match args with
      | [] => rfl
      | [p] => simp only [hb, Bool.false_and]; rfl
      | _ :: _ :: _ => rfl

/-- Witness for C4 at the `Promise<void>` return type. -/
theorem C4_promised_return_shape_witness :
    ((getPromisedReturnType (.functionType []
        (some (.typeRef (.ident "Promise") (some [TsType.voidKeyword])))) "cmd").isOk
      = wrapperShapeOk (some (.typeRef (.ident "Promise") (some [TsType.voidKeyword]))))
    ∧ getPromisedReturnType (.functionType []
        (some (.typeRef (.ident "Promise") (some [TsType.voidKeyword])))) "cmd" = .ok "void" :=
  ⟨(C4_promised_return_shape []
      (some (.typeRef (.ident "Promise") (some [TsType.voidKeyword]))) "cmd").1,
   (C4_promised_return_shape []
      (some (.typeRef (.ident "Promise") (some [TsType.voidKeyword]))) "cmd").2.1 rfl⟩

/-- One accepted listener method adds exactly one entry, keyed by the domain
and the derived event string, to the ordered event map. -/
theorem processEventMembers_cons_ok {domainName methodName : String}
    {parameters : List (Option TsType)} {rest : List Member}
    {acc : List (String × String)} {es ty : String}
    (h : isListenerName methodName = true)
    (hes : eventStringOf methodName = .ok es)
    (hty : eventTypeOf parameters methodName = .ok ty) :
    processEventMembers domainName
        (.methodSignature (.identName methodName) parameters :: rest) acc
      = processEventMembers domainName rest (mapSet acc (domainName ++ "." ++ es) ty) := by
  conv_lhs => unfold processEventMembers
  rw [if_pos h]
  rw [hes, bindOkE]
  simp only
  rw [hty, bindOkE]

/-- `getEventMap` on a root that is itself the sought client interface. -/
theorem getEventMap_self {n dn : String} (hn : n = dn ++ "Client") (members : List Member) :
    getEventMap (.interfaceDecl n members) dn = processEventMembers dn members [] := by
  subst hn
  simp [getEventMap, findFirstInterfaceOrModule]

/-- Claim C2: a method-signature member of the `<D>Client` interface whose
name matches `on` + capital produces exactly one event-map entry keyed
`D.` + eventName, where eventName lower-cases the character after `on` and
keeps the remainder verbatim; the derived name's first character is an ASCII
lower-case letter. -/
theorem C2_listener_event_entry {domainName methodName : String}
    {parameters : List (Option TsType)} {rest : List Member}
    {acc : List (String × String)} {es ty : String}
    (h : isListenerName methodName = true)
    (hes : eventStringOf methodName = .ok es)
    (hty : eventTypeOf parameters methodName = .ok ty) :
    processEventMembers domainName
        (.methodSignature (.identName methodName) parameters :: rest) acc
      = processEventMembers domainName rest (mapSet acc (domainName ++ "." ++ es) ty)
    ∧ ∃ c cs, methodName.toList = 'o' :: 'n' :: c :: cs
        ∧ es = String.mk (jsToLower c :: cs)
        ∧ 'a' ≤ jsToLower c ∧ jsToLower c ≤ 'z' := by
  obtain ⟨c, cs, hm, hA, hZ⟩ := isListenerName_shape h
  have hes' : es = String.mk (jsToLower c :: cs) := by
    unfold eventStringOf at hes
    rw [hm] at hes
    exact (Except.ok.inj hes).symm
  exact ⟨processEventMembers_cons_ok h hes hty,
    c, cs, hm, hes', (jsToLower_lower hA hZ).1, (jsToLower_lower hA hZ).2⟩

/-- Witness for C2 at the listener `onFoo` with a no-argument callback. -/
theorem C2_listener_event_entry_witness :
    (processEventMembers "Network"
        [.methodSignature (.identName "onFoo") [some (.functionType [] none)]] []
      = processEventMembers "Network" [] (mapSet [] ("Network" ++ "." ++ "foo") "void"))
    ∧ ∃ c cs, ("onFoo" : String).toList = 'o' :: 'n' :: c :: cs
        ∧ "foo" = String.mk (jsToLower c :: cs)
        ∧ 'a' ≤ jsToLower c ∧ jsToLower c ≤ 'z' :=
  @C2_listener_event_entry "Network" "onFoo" [some (.functionType [] none)] [] []
    "foo" "void" rfl rfl rfl

/-- Claim C8: two listener methods with the same (duplicate) name succeed and
leave one entry whose payload comes from the later method; with an unrelated
listener in between, the duplicate key keeps its first-insertion position and
only its value is overwritten (insertion order, last write wins, no duplicate
keys). -/
theorem C8_duplicate_listener_last_write_wins {domainName methodName methodName2 : String}
    {p1 p2 pMid : List (Option TsType)} {es es2 t1 t2 u : String}
    (h : isListenerName methodName = true)
    (hes : eventStringOf methodName = .ok es)
    (h1 : eventTypeOf p1 methodName = .ok t1)
    (h2 : eventTypeOf p2 methodName = .ok t2)
    (h' : isListenerName methodName2 = true)
    (hes2 : eventStringOf methodName2 = .ok es2)
    (hu : eventTypeOf pMid methodName2 = .ok u)
    (hne : domainName ++ "." ++ es2 ≠ domainName ++ "." ++ es) :
    getEventMap (.interfaceDecl (domainName ++ "Client")
        [.methodSignature (.identName methodName) p1,
         .methodSignature (.identName methodName) p2]) domainName
      = .ok [(domainName ++ "." ++ es, t2)]
    ∧ getEventMap (.interfaceDecl (domainName ++ "Client")
        [.methodSignature (.identName methodName) p1,
         .methodSignature (.identName methodName2) pMid,
         .methodSignature (.identName methodName) p2]) domainName
      = .ok [(domainName ++ "." ++ es, t2), (domainName ++ "." ++ es2, u)] := by
  have hk2 : ((domainName ++ "." ++ es2) == (domainName ++ "." ++ es)) = false := by
    simpa using hne
  have hk2' : ((domainName ++ "." ++ es) == (domainName ++ "." ++ es2)) = false := by
    rw [beq_eq_false_iff_ne]
    exact fun hh => hne hh.symm
  constructor
  · rw [getEventMap_self rfl]
    rw [processEventMembers_cons_ok h hes h1]
    rw [processEventMembers_cons_ok h hes h2]
    simp [processEventMembers, mapSet]
  · rw [getEventMap_self rfl]
    rw [processEventMembers_cons_ok h hes h1]
    rw [processEventMembers_cons_ok h' hes2 hu]
    rw [processEventMembers_cons_ok h hes h2]
    simp [processEventMembers, mapSet, hk2, hk2']
    exact fun hh => absurd hh hne

def egFooPayloadFn : Option TsType :=
  some (.functionType [some (.typeRef (.qualified (.ident "Network") "FooEvent") none)] none)

/-- Witness for C8: duplicate `onFoo` listeners, with and without an `onBar`
listener in between. -/
theorem C8_duplicate_listener_last_write_wins_witness :
    getEventMap (.interfaceDecl ("Network" ++ "Client")
        [.methodSignature (.identName "onFoo") [some (.functionType [] none)],
         .methodSignature (.identName "onFoo") [egFooPayloadFn]]) "Network"
      = .ok [("Network" ++ "." ++ "foo", "Crdp.Network.FooEvent")]
    ∧ getEventMap (.interfaceDecl ("Network" ++ "Client")
        [.methodSignature (.identName "onFoo") [some (.functionType [] none)],
         .methodSignature (.identName "onBar") [some (.functionType [] none)],
         .methodSignature (.identName "onFoo") [egFooPayloadFn]]) "Network"
      = .ok [("Network" ++ "." ++ "foo", "Crdp.Network.FooEvent"),
             ("Network" ++ "." ++ "bar", "void")] :=
  @C8_duplicate_listener_last_write_wins "Network" "onFoo" "onBar"
    [some (.functionType [] none)] [egFooPayloadFn] [some (.functionType [] none)]
    "foo" "bar" "void" "Crdp.Network.FooEvent" "void"
    rfl rfl rfl rfl rfl rfl rfl (by decide)

theorem strRepeat_two_len (n : Nat) : (strRepeat "  " n).length = 2 * n := by
  induction n with
  | zero => rfl
  | succ m ih =>
    unfold strRepeat
    rw [String.length_append, ih]
    have h2 : ("  " : String).length = 2 := rfl
    omega

/-- Claim C6: the end-to-end extraction-and-rendering pipeline is a pure
function — two runs on equal parsed schema trees produce byte-for-byte equal
output strings — and the indentation is a stable two spaces per level. -/
theorem C6_output_deterministic :
    (∀ t1 t2 : TsNode, t1 = t2 → generateCrdpStr t1 = generateCrdpStr t2)
    ∧ ∀ i, (newline i).length = 1 + 2 * i := by
  constructor
  · intro t1 t2 h
    rw [h]
  · intro i
    unfold newline
    rw [String.length_append, strRepeat_two_len]
    rfl

/-- Witness for C6 at a concrete schema tree. -/
theorem C6_output_deterministic_witness :
    generateCrdpStr (.interfaceDecl "CrdpClient" []) =
      generateCrdpStr (.interfaceDecl "CrdpClient" [])
    ∧ (newline 2).length = 1 + 2 * 2 :=
  ⟨C6_output_deterministic.1 _ _ rfl, C6_output_deterministic.2 2⟩

end Crdp
